import Mathlib

/-!
Verification of the dns-exporter collector (src/main.go).

The program is a Prometheus collector that, on each scrape (Collect), spawns
one goroutine per configured host.  Each goroutine (resolveHost) performs a
DNS lookup, measures the elapsed wall-clock time, updates two mutex-protected
maps (totalErrorCount on failure, totalCount always) and sends three metric
samples on the scrape channel.

The embedding below is a shallow, executable model of that code:

* Go maps from string to int become association lists with default value 0
  (CounterMap), matching the read-missing-key-as-zero semantics of Go maps.
* The body of resolveHost is decomposed into a list of atomic events
  (probeTrace), in the exact order of the source: on failure the error
  counter is incremented at lines 92-94, the failure is logged at line 96,
  the attempt counter is incremented at lines 101-103, and lines 105-107
  read the two counters and emit the three samples.  Running the events
  (runEvents / stepEvent) over a RunState gives the sequential semantics of
  one probe; interleavings of tagged events model concurrent probes.
* The DNS resolver and the clock are oracles: a probe outcome is a pair of a
  success flag and the measured elapsed seconds (modelled as a rational,
  standing for the float64 returned by Duration.Seconds).
* Collect folds resolveHost over the host list; this is the sequential
  interleaving of the fan-out in lines 71-85.  runCycles iterates Collect.
-/

/-- Metric namespace constant, main.go line 14. -/
def Namespace : String := "dns_exporter"

/-- Config struct, main.go lines 17-19. -/
structure Config where
  Hosts : List String
deriving DecidableEq, Repr

/-- Model of a prometheus.Desc: the fully-qualified metric name, the help
string, and the variable label names, as built by prometheus.NewDesc. -/
structure Desc where
  fqName : String
  help : String
  variableLabels : List String
deriving DecidableEq, Repr

/-- Model of prometheus.BuildFQName from the client_golang library (an
external dependency of main.go): joins the nonempty parts of
namespace, subsystem and name with underscores; empty name gives the
empty string. -/
def BuildFQName (ns subsystem name : String) : String :=
  if name = "" then ""
  else if ns ≠ "" ∧ subsystem ≠ "" then ns ++ "_" ++ subsystem ++ "_" ++ name
  else if ns ≠ "" then ns ++ "_" ++ name
  else if subsystem ≠ "" then subsystem ++ "_" ++ name
  else name

/-- Go map from string to int, modelled as an association list.  Reading an
absent key yields 0, exactly as a Go map read of a missing key yields the
zero value. -/
abbrev CounterMap := List (String × Nat)

/-- Read a key from a counter map; absent keys read as 0 (Go zero value). -/
def CounterMap.get : CounterMap → String → Nat
  | [], _ => 0
  | (k, v) :: rest, h => if k = h then v else CounterMap.get rest h

/-- Model of the Go statement m[host] += 1: update the entry in place, or
insert it with value 1 when the key is absent. -/
def CounterMap.incr : CounterMap → String → CounterMap
  | [], h => [(h, 1)]
  | (k, v) :: rest, h =>
      if k = h then (k, v + 1) :: rest else (k, v) :: CounterMap.incr rest h

/-- The DNSCollector struct, main.go lines 21-33.  The two sync.Mutex fields
have no sequential content; mutual exclusion is modelled by making each
counter increment a single atomic event of the trace semantics. -/
structure DNSCollector where
  total : Desc
  totalError : Desc
  latency : Desc
  hosts : List String
  totalCount : CounterMap
  totalErrorCount : CounterMap
deriving DecidableEq, Repr

/-- The struct literal built inside NewDNSCollector, main.go lines 36-60. -/
def dnsCollector (config : Config) : DNSCollector :=
  { total :=
      { fqName := BuildFQName Namespace "" "resolution_total"
        help := "Total number of DNS resolutions."
        variableLabels := ["host"] }
    totalError :=
      { fqName := BuildFQName Namespace "" "resolution_error_total"
        help := "Total number of DNS resolution errors."
        variableLabels := ["host"] }
    latency :=
      { fqName := BuildFQName Namespace "" "resolution_seconds"
        help := "Time taken to resolve DNS."
        variableLabels := ["host"] }
    hosts := config.Hosts
    totalCount := []
    totalErrorCount := [] }

/-- NewDNSCollector, main.go lines 35-63: builds the struct literal and
returns it together with a nil error (modelled by Except.ok). -/
def NewDNSCollector (config : Config) : Except String DNSCollector :=
  Except.ok (dnsCollector config)

/-- Kind of an emitted metric value: prometheus.CounterValue or
prometheus.GaugeValue. -/
inductive MetricKind where
  | counter
  | gauge
deriving DecidableEq, Repr

/-- One metric sample sent on the scrape channel by MustNewConstMetric:
metric name, host label value, numeric value, and value kind. -/
structure Sample where
  name : String
  host : String
  value : ℚ
  kind : MetricKind
deriving DecidableEq, Repr

/-- Atomic events of the body of resolveHost, main.go lines 87-108.
incError is the mutex-protected increment at lines 92-94; logFailure is the
log.Printf call at line 96; incTotal is the mutex-protected increment at
lines 101-103; readTotal and readError are the unsynchronized map reads and
channel sends at lines 105 and 106; emitLatency is the send at line 107. -/
inductive ProbeEvent where
  | incError (host : String)
  | logFailure (host : String)
  | incTotal (host : String)
  | readTotal (host : String)
  | readError (host : String)
  | emitLatency (host : String) (elapsed : ℚ)
deriving DecidableEq, Repr

/-- State visible to the probes: the collector (holding both counter maps),
the samples sent on the scrape channel so far, and the log output so far
(a log entry is recorded as the failing host name). -/
structure RunState where
  collector : DNSCollector
  emitted : List Sample
  logs : List String
deriving DecidableEq, Repr

/-- Effect of one atomic event on the state. -/
def stepEvent (s : RunState) : ProbeEvent → RunState
  | ProbeEvent.incError host =>
      { s with collector :=
          { s.collector with
              totalErrorCount := CounterMap.incr s.collector.totalErrorCount host } }
  | ProbeEvent.logFailure host =>
      { s with logs := s.logs ++ [host] }
  | ProbeEvent.incTotal host =>
      { s with collector :=
          { s.collector with
              totalCount := CounterMap.incr s.collector.totalCount host } }
  | ProbeEvent.readTotal host =>
      { s with emitted := s.emitted ++
          [{ name := s.collector.total.fqName
             host := host
             value := (CounterMap.get s.collector.totalCount host : ℚ)
             kind := MetricKind.counter }] }
  | ProbeEvent.readError host =>
      { s with emitted := s.emitted ++
          [{ name := s.collector.totalError.fqName
             host := host
             value := (CounterMap.get s.collector.totalErrorCount host : ℚ)
             kind := MetricKind.counter }] }
  | ProbeEvent.emitLatency host elapsed =>
      { s with emitted := s.emitted ++
          [{ name := s.collector.latency.fqName
             host := host
             value := elapsed
             kind := MetricKind.gauge }] }

/-- Run a list of events from a state. -/
def runEvents (s : RunState) (tr : List ProbeEvent) : RunState :=
  tr.foldl stepEvent s

/-- Event trace of one probe of one host, in the exact order of the source
(main.go lines 87-108).  ok is the success of net.LookupHost; elapsed is the
value of time.Since(start).Seconds() for this probe.  On failure the error
counter is incremented and the failure logged before the attempt counter is
incremented; the reads and sends come last. -/
def probeTrace (host : String) (ok : Bool) (elapsed : ℚ) : List ProbeEvent :=
  (cond ok [] [ProbeEvent.incError host, ProbeEvent.logFailure host]) ++
    [ProbeEvent.incTotal host, ProbeEvent.readTotal host,
     ProbeEvent.readError host, ProbeEvent.emitLatency host elapsed]

/-- resolveHost, main.go lines 87-108, as a sequential state transformer:
run the probe trace of the host from the given state. -/
def resolveHost (s : RunState) (host : String) (ok : Bool) (elapsed : ℚ) : RunState :=
  runEvents s (probeTrace host ok elapsed)

/-- Fold of resolveHost over the host list.  outcome gives, per host, the
success flag of its lookup and its measured elapsed seconds. -/
def collectAux (outcome : String → Bool × ℚ) : RunState → List String → RunState
  | s, [] => s
  | s, host :: rest =>
      collectAux outcome (resolveHost s host (outcome host).1 (outcome host).2) rest

/-- Collect, main.go lines 71-85: probe every host of the registry, starting
from a fresh scrape channel and the current counters, and wait for all
probes.  The goroutine fan-out is modelled by this sequential interleaving;
interleavings across probes of distinct hosts touch disjoint counter keys,
and the concurrency-sensitive claims are analysed on tagged interleavings
below. -/
def Collect (c : DNSCollector) (outcome : String → Bool × ℚ) : RunState :=
  collectAux outcome { collector := c, emitted := [], logs := [] } c.hosts

/-- Iterate Collect: runCycles outcomes c n is the collector state after n
completed Collection Cycles, where cycle i uses the outcome oracle
outcomes i. -/
def runCycles (outcomes : Nat → String → Bool × ℚ) (c : DNSCollector) : Nat → DNSCollector
  | 0 => c
  | Nat.succ n => (Collect (runCycles outcomes c n) (outcomes n)).collector

/-- Number of occurrences of h in a host list. -/
def occCount (h : String) : List String → Nat
  | [] => 0
  | x :: rest => (if h = x then 1 else 0) + occCount h rest

/-- All states passed through while one probe executes from s: the states
after each prefix of the probe trace.  These are the reachable states within
a probe. -/
def statesWithinProbe (s : RunState) (host : String) (ok : Bool) (elapsed : ℚ) :
    List RunState :=
  (List.range ((probeTrace host ok elapsed).length + 1)).map
    (fun i => runEvents s ((probeTrace host ok elapsed).take i))

/-- Event a occurs strictly before event b in the trace tr. -/
abbrev occursBefore (tr : List ProbeEvent) (a b : ProbeEvent) : Prop :=
  ∃ i j : Fin tr.length, i < j ∧ tr.get i = a ∧ tr.get j = b

/-- A tagged trace interleaves two probes: the projection to each tag is
exactly that probe program, so each goroutine executes its events in
program order. -/
abbrev isInterleaving (tr : List (Bool × ProbeEvent)) (trA trB : List ProbeEvent) : Prop :=
  tr.filterMap (fun p => if p.1 then some p.2 else none) = trA ∧
    tr.filterMap (fun p => if p.1 then none else some p.2) = trB

/-- Run a tagged trace (tags carry no semantics, they only attribute events
to goroutines). -/
def runTagged (s : RunState) (tr : List (Bool × ProbeEvent)) : RunState :=
  runEvents s (tr.map Prod.snd)

/-- Number of failed probes of host h in one cycle over the given host list:
one per occurrence of h whose outcome flag is false. -/
def errOccCount (o : String → Bool × ℚ) (h : String) : List String → Nat
  | [] => 0
  | x :: rest => (if h = x then (if (o x).1 then 0 else 1) else 0) + errOccCount o h rest

/-- Shared concrete one-host configuration used by concrete instances. -/
def cfgA : Config := { Hosts := ["a"] }

/-- Fresh run state over the one-host configuration. -/
def sA : RunState := { collector := dnsCollector cfgA, emitted := [], logs := [] }

/-- Concrete outcome schedule: cycle 0 succeeds, later cycles fail; the
elapsed seconds of cycle k is k + 3, so consecutive cycles measure different
durations. -/
def wOutcomes : Nat → String → Bool × ℚ := fun k _ => (decide (k = 0), ((k + 3 : ℕ) : ℚ))

/-- Interleaving of two failing probes of the same host (two overlapping
Collection Cycles): thread A runs through its increments, thread B then runs
through its increments, and only then does thread A perform the
unsynchronized reads of lines 105-106 and emit. -/
def racyInterleaving : List (Bool × ProbeEvent) :=
  [(true, ProbeEvent.incError "a"), (true, ProbeEvent.logFailure "a"),
   (true, ProbeEvent.incTotal "a"),
   (false, ProbeEvent.incError "a"), (false, ProbeEvent.logFailure "a"),
   (false, ProbeEvent.incTotal "a"),
   (true, ProbeEvent.readTotal "a"), (true, ProbeEvent.readError "a"),
   (true, ProbeEvent.emitLatency "a" 0),
   (false, ProbeEvent.readTotal "a"), (false, ProbeEvent.readError "a"),
   (false, ProbeEvent.emitLatency "a" 0)]

theorem CounterMap.get_incr (m : CounterMap) (k h : String) :
    CounterMap.get (CounterMap.incr m k) h =
      CounterMap.get m h + (if h = k then 1 else 0) := by
  induction m with
  | nil =>
      simp only [CounterMap.incr, CounterMap.get, Nat.zero_add]
      by_cases hkh : k = h
      · rw [if_pos hkh, if_pos hkh.symm]
      · rw [if_neg hkh, if_neg (fun hh => hkh hh.symm)]
  | cons p rest ih =>
      obtain ⟨a, v⟩ := p
      simp only [CounterMap.incr]
      by_cases hak : a = k
      · rw [if_pos hak]
        simp only [CounterMap.get]
        by_cases hah : a = h
        · rw [if_pos hah, if_pos hah, if_pos (hah.symm.trans hak)]
        · rw [if_neg hah, if_neg hah, if_neg (fun hh : h = k => hah (hak.trans hh.symm)),
            Nat.add_zero]
      · rw [if_neg hak]
        simp only [CounterMap.get]
        by_cases hah : a = h
        · rw [if_pos hah, if_pos hah, if_neg (fun hh : h = k => hak (hah.trans hh)),
            Nat.add_zero]
        · rw [if_neg hah, if_neg hah]
          exact ih

theorem resolveHost_totalCount_get (s : RunState) (host : String) (ok : Bool) (e : ℚ)
    (h : String) :
    CounterMap.get (resolveHost s host ok e).collector.totalCount h =
      CounterMap.get s.collector.totalCount h + (if h = host then 1 else 0) := by
  cases ok <;>
    simp [resolveHost, probeTrace, runEvents, stepEvent, CounterMap.get_incr]

theorem resolveHost_totalErrorCount_get (s : RunState) (host : String) (ok : Bool) (e : ℚ)
    (h : String) :
    CounterMap.get (resolveHost s host ok e).collector.totalErrorCount h =
      CounterMap.get s.collector.totalErrorCount h +
        (if h = host then (if ok then 0 else 1) else 0) := by
  cases ok <;>
    simp [resolveHost, probeTrace, runEvents, stepEvent, CounterMap.get_incr]

theorem resolveHost_descs (s : RunState) (host : String) (ok : Bool) (e : ℚ) :
    (resolveHost s host ok e).collector.total = s.collector.total ∧
    (resolveHost s host ok e).collector.totalError = s.collector.totalError ∧
    (resolveHost s host ok e).collector.latency = s.collector.latency ∧
    (resolveHost s host ok e).collector.hosts = s.collector.hosts := by
  cases ok <;> simp [resolveHost, probeTrace, runEvents, stepEvent]

theorem resolveHost_emitted (s : RunState) (host : String) (ok : Bool) (e : ℚ) :
    (resolveHost s host ok e).emitted = s.emitted ++
      [ { name := s.collector.total.fqName
          host := host
          value := (CounterMap.get (resolveHost s host ok e).collector.totalCount host : ℚ)
          kind := MetricKind.counter },
        { name := s.collector.totalError.fqName
          host := host
          value := (CounterMap.get (resolveHost s host ok e).collector.totalErrorCount host : ℚ)
          kind := MetricKind.counter },
        { name := s.collector.latency.fqName
          host := host
          value := e
          kind := MetricKind.gauge } ] := by
  cases ok <;>
    simp [resolveHost, probeTrace, runEvents, stepEvent, CounterMap.get_incr]

theorem resolveHost_logs (s : RunState) (host : String) (ok : Bool) (e : ℚ) :
    (resolveHost s host ok e).logs = s.logs ++ (cond ok [] [host]) := by
  cases ok <;> simp [resolveHost, probeTrace, runEvents, stepEvent]

theorem errOccCount_le_occCount (o : String → Bool × ℚ) (h : String) (hosts : List String) :
    errOccCount o h hosts ≤ occCount h hosts := by
  induction hosts with
  | nil => simp [errOccCount, occCount]
  | cons x rest ih =>
      simp only [errOccCount, occCount]
      have hle : (if h = x then (if (o x).1 then 0 else 1) else 0) ≤
          (if h = x then 1 else 0) := by
        by_cases hhx : h = x
        · simp only [if_pos hhx]
          cases (o x).1 <;> simp
        · simp [hhx]
      omega

theorem collectAux_totalCount_get (o : String → Bool × ℚ) (hosts : List String) :
    ∀ s h, CounterMap.get (collectAux o s hosts).collector.totalCount h =
      CounterMap.get s.collector.totalCount h + occCount h hosts := by
  induction hosts with
  | nil => intro s h; simp [collectAux, occCount]
  | cons x rest ih =>
      intro s h
      simp only [collectAux, occCount]
      rw [ih, resolveHost_totalCount_get]
      ring

theorem collectAux_totalErrorCount_get (o : String → Bool × ℚ) (hosts : List String) :
    ∀ s h, CounterMap.get (collectAux o s hosts).collector.totalErrorCount h =
      CounterMap.get s.collector.totalErrorCount h + errOccCount o h hosts := by
  induction hosts with
  | nil => intro s h; simp [collectAux, errOccCount]
  | cons x rest ih =>
      intro s h
      simp only [collectAux, errOccCount]
      rw [ih, resolveHost_totalErrorCount_get]
      ring

theorem collectAux_collector_descs (o : String → Bool × ℚ) (hosts : List String) :
    ∀ s, (collectAux o s hosts).collector.total = s.collector.total ∧
      (collectAux o s hosts).collector.totalError = s.collector.totalError ∧
      (collectAux o s hosts).collector.latency = s.collector.latency ∧
      (collectAux o s hosts).collector.hosts = s.collector.hosts := by
  induction hosts with
  | nil => intro s; simp [collectAux]
  | cons x rest ih =>
      intro s
      simp only [collectAux]
      obtain ⟨h1, h2, h3, h4⟩ := ih (resolveHost s x (o x).1 (o x).2)
      obtain ⟨g1, g2, g3, g4⟩ := resolveHost_descs s x (o x).1 (o x).2
      exact ⟨h1.trans g1, h2.trans g2, h3.trans g3, h4.trans g4⟩

theorem collectAux_emitted_filter (o : String → Bool × ℚ) (hosts : List String) :
    ∀ s h, ((collectAux o s hosts).emitted.filter (fun smp => smp.host == h)).length =
      (s.emitted.filter (fun smp => smp.host == h)).length + 3 * occCount h hosts := by
  induction hosts with
  | nil => intro s h; simp [collectAux, occCount]
  | cons x rest ih =>
      intro s h
      simp only [collectAux, occCount]
      rw [ih]
      have hres : (((resolveHost s x (o x).1 (o x).2).emitted.filter
          (fun smp => smp.host == h)).length) =
          (s.emitted.filter (fun smp => smp.host == h)).length +
            (if h = x then 3 else 0) := by
        rw [resolveHost_emitted, List.filter_append, List.length_append]
        by_cases hhx : h = x
        · subst hhx; simp [List.filter]
        · have hxh : ¬x = h := fun hh => hhx hh.symm
          have hbe : (x == h) = false := beq_eq_false_iff_ne.mpr hxh
          simp [List.filter, hbe, hhx]
      rw [hres]
      by_cases hhx : h = x
      · simp only [if_pos hhx]
        ring
      · simp only [if_neg hhx]
        ring

theorem collectAux_emitted_length (o : String → Bool × ℚ) (hosts : List String) :
    ∀ s, (collectAux o s hosts).emitted.length = s.emitted.length + 3 * hosts.length := by
  induction hosts with
  | nil => intro s; simp [collectAux]
  | cons x rest ih =>
      intro s
      simp only [collectAux, List.length_cons]
      rw [ih, resolveHost_emitted, List.length_append]
      simp
      ring

theorem collectAux_logs (o : String → Bool × ℚ) (hosts : List String) :
    ∀ s, (collectAux o s hosts).logs = s.logs ++ hosts.filter (fun x => !(o x).1) := by
  induction hosts with
  | nil => intro s; simp [collectAux]
  | cons x rest ih =>
      intro s
      simp only [collectAux]
      rw [ih, resolveHost_logs]
      cases hox : (o x).1 <;> simp [List.filter, hox]

theorem collectAux_emitted_mem (o : String → Bool × ℚ) (hosts : List String) :
    ∀ s smp, smp ∈ (collectAux o s hosts).emitted →
      smp ∈ s.emitted ∨ ∃ x, x ∈ hosts ∧ smp.host = x ∧
        ((smp.name = s.collector.total.fqName ∧ smp.kind = MetricKind.counter) ∨
         (smp.name = s.collector.totalError.fqName ∧ smp.kind = MetricKind.counter) ∨
         (smp.name = s.collector.latency.fqName ∧ smp.kind = MetricKind.gauge ∧
           smp.value = (o x).2)) := by
  induction hosts with
  | nil =>
      intro s smp hmem
      exact Or.inl hmem
  | cons x rest ih =>
      intro s smp hmem
      simp only [collectAux] at hmem
      obtain ⟨g1, g2, g3, g4⟩ := resolveHost_descs s x (o x).1 (o x).2
      rcases ih _ smp hmem with hin | ⟨y, hy, hhost, hname⟩
      · rw [resolveHost_emitted] at hin
        rcases List.mem_append.mp hin with hold | hnew
        · exact Or.inl hold
        · rw [List.mem_cons, List.mem_cons, List.mem_singleton] at hnew
          refine Or.inr ⟨x, List.mem_cons_self x rest, ?_, ?_⟩
          · rcases hnew with h1 | h2 | h3
            · rw [h1]
            · rw [h2]
            · rw [h3]
          · rcases hnew with h1 | h2 | h3
            · exact Or.inl ⟨by rw [h1], by rw [h1]⟩
            · exact Or.inr (Or.inl ⟨by rw [h2], by rw [h2]⟩)
            · exact Or.inr (Or.inr ⟨by rw [h3], by rw [h3], by rw [h3]⟩)
      · rw [g1, g2, g3] at hname
        exact Or.inr ⟨y, List.mem_cons_of_mem x hy, hhost, hname⟩

theorem Collect_totalCount_get (c : DNSCollector) (o : String → Bool × ℚ) (h : String) :
    CounterMap.get (Collect c o).collector.totalCount h =
      CounterMap.get c.totalCount h + occCount h c.hosts :=
  collectAux_totalCount_get o c.hosts { collector := c, emitted := [], logs := [] } h

theorem Collect_totalErrorCount_get (c : DNSCollector) (o : String → Bool × ℚ) (h : String) :
    CounterMap.get (Collect c o).collector.totalErrorCount h =
      CounterMap.get c.totalErrorCount h + errOccCount o h c.hosts :=
  collectAux_totalErrorCount_get o c.hosts { collector := c, emitted := [], logs := [] } h

theorem Collect_descs (c : DNSCollector) (o : String → Bool × ℚ) :
    (Collect c o).collector.total = c.total ∧
    (Collect c o).collector.totalError = c.totalError ∧
    (Collect c o).collector.latency = c.latency ∧
    (Collect c o).collector.hosts = c.hosts :=
  collectAux_collector_descs o c.hosts { collector := c, emitted := [], logs := [] }

theorem runCycles_descs (oo : Nat → String → Bool × ℚ) (c : DNSCollector) (n : Nat) :
    (runCycles oo c n).total = c.total ∧
    (runCycles oo c n).totalError = c.totalError ∧
    (runCycles oo c n).latency = c.latency ∧
    (runCycles oo c n).hosts = c.hosts := by
  induction n with
  | zero => exact ⟨rfl, rfl, rfl, rfl⟩
  | succ m ih =>
      obtain ⟨h1, h2, h3, h4⟩ := ih
      obtain ⟨g1, g2, g3, g4⟩ := Collect_descs (runCycles oo c m) (oo m)
      exact ⟨g1.trans h1, g2.trans h2, g3.trans h3, g4.trans h4⟩

theorem runCycles_totalCount_get (oo : Nat → String → Bool × ℚ) (c : DNSCollector)
    (n : Nat) (h : String) :
    CounterMap.get (runCycles oo c n).totalCount h =
      CounterMap.get c.totalCount h + n * occCount h c.hosts := by
  induction n with
  | zero => simp [runCycles]
  | succ m ih =>
      simp only [runCycles]
      rw [Collect_totalCount_get, ih, (runCycles_descs oo c m).2.2.2]
      ring

/-- C1, counterexample: the claim fails when a host occurs more than once in
the registry.  With registry ["a", "a"], after one completed Collection
Cycle in which every probe completes, the stored attempt count of the
registered host "a" is 2, not 1: both goroutines for the duplicated entry
increment totalCount["a"]. -/
theorem totalCount_after_one_cycle_with_duplicate_host :
    "a" ∈ ({ Hosts := ["a", "a"] } : Config).Hosts ∧
    CounterMap.get
      (runCycles (fun _ _ => (true, 0)) (dnsCollector { Hosts := ["a", "a"] }) 1).totalCount
      "a" = 2 ∧
    2 ≠ 1 := by decide

/-- C1, amended: after n completed Collection Cycles from a fresh collector,
the stored attempt count of any host h equals n times the number of
occurrences of h in the registry.  For a registry without duplicates this is
exactly n for every registered host (and 0 for unregistered hosts). -/
theorem totalCount_after_cycles_eq_mul_occurrences (config : Config)
    (outcomes : Nat → String → Bool × ℚ) (n : Nat) (h : String) :
    CounterMap.get (runCycles outcomes (dnsCollector config) n).totalCount h =
      n * occCount h config.Hosts := by
  have := runCycles_totalCount_get outcomes (dnsCollector config) n h
  simpa [dnsCollector, CounterMap.get] using this

/-- C2, confirmed: in one probe of one host, the attempt counter of that
host is incremented exactly once unconditionally (counters of other hosts
are unchanged), the error counter of that host is incremented exactly once
iff the lookup failed, and exactly three samples are emitted for that host:
its cumulative attempt total, its cumulative error total, and the probe
latency. -/
theorem resolveHost_increments_and_emits (s : RunState) (host : String) (ok : Bool) (e : ℚ) :
    CounterMap.get (resolveHost s host ok e).collector.totalCount host
        = CounterMap.get s.collector.totalCount host + 1 ∧
    (∀ h, h ≠ host →
      CounterMap.get (resolveHost s host ok e).collector.totalCount h
        = CounterMap.get s.collector.totalCount h) ∧
    CounterMap.get (resolveHost s host ok e).collector.totalErrorCount host
        = CounterMap.get s.collector.totalErrorCount host + (if ok then 0 else 1) ∧
    (∀ h, h ≠ host →
      CounterMap.get (resolveHost s host ok e).collector.totalErrorCount h
        = CounterMap.get s.collector.totalErrorCount h) ∧
    (resolveHost s host ok e).emitted = s.emitted ++
      [ { name := s.collector.total.fqName
          host := host
          value := (CounterMap.get (resolveHost s host ok e).collector.totalCount host : ℚ)
          kind := MetricKind.counter },
        { name := s.collector.totalError.fqName
          host := host
          value := (CounterMap.get (resolveHost s host ok e).collector.totalErrorCount host : ℚ)
          kind := MetricKind.counter },
        { name := s.collector.latency.fqName
          host := host
          value := e
          kind := MetricKind.gauge } ] := by
  refine ⟨?_, ?_, ?_, ?_, resolveHost_emitted s host ok e⟩
  · rw [resolveHost_totalCount_get]; simp
  · intro h hne; rw [resolveHost_totalCount_get]; simp [hne]
  · rw [resolveHost_totalErrorCount_get]; simp
  · intro h hne; rw [resolveHost_totalErrorCount_get]; simp [hne]

/-- Witness for C2: concrete instance discharging the h distinct from host
hypotheses at host "b" against a probe of "a". -/
theorem resolveHost_increments_and_emits_witness :
    CounterMap.get (resolveHost sA "a" false 0).collector.totalCount "b"
        = CounterMap.get sA.collector.totalCount "b" ∧
    CounterMap.get (resolveHost sA "a" false 0).collector.totalErrorCount "b"
        = CounterMap.get sA.collector.totalErrorCount "b" :=
  ⟨(resolveHost_increments_and_emits sA "a" false 0).2.1 "b" (by decide),
   (resolveHost_increments_and_emits sA "a" false 0).2.2.2.1 "b" (by decide)⟩

/-- C3, counterexample: the invariant does not hold at every reachable state
within operations on the Counter Store.  Among the states reached while a
failing probe of a fresh collector executes, there is one (right after the
error increment of line 93 and before the attempt increment of line 102)
where the error count of the host exceeds its attempt count. -/
theorem error_exceeds_attempt_within_failing_probe :
    ∃ s ∈ statesWithinProbe sA "a" false 0,
      ¬ (CounterMap.get s.collector.totalErrorCount "a" ≤
          CounterMap.get s.collector.totalCount "a") := by decide

/-- C3, amended: at every Collection Cycle boundary (after any number of
completed cycles from a fresh collector) the error count of every host is at
most its attempt count.  The invariant is transient-violated inside a
failing probe because the code increments the error counter before the
attempt counter. -/
theorem error_le_attempt_after_cycles (config : Config)
    (outcomes : Nat → String → Bool × ℚ) (n : Nat) (h : String) :
    CounterMap.get (runCycles outcomes (dnsCollector config) n).totalErrorCount h ≤
      CounterMap.get (runCycles outcomes (dnsCollector config) n).totalCount h := by
  induction n with
  | zero => simp [runCycles, dnsCollector, CounterMap.get]
  | succ m ih =>
      simp only [runCycles]
      rw [Collect_totalCount_get, Collect_totalErrorCount_get]
      exact Nat.add_le_add ih
        (errOccCount_le_occCount (outcomes m) h (runCycles outcomes (dnsCollector config) m).hosts)

/-- C4, counterexample: in the failing-probe event trace of the source the
attempt-counter increment does not occur before the error-counter increment;
the code (main.go lines 91-103) performs the error increment first. -/
theorem attempt_increment_not_before_error_increment :
    ¬ occursBefore (probeTrace "a" false 0)
      (ProbeEvent.incTotal "a") (ProbeEvent.incError "a") := by decide

/-- C4, amended: within a probe of a single host, the increment of the error
counter (when the lookup fails, lines 92-94) occurs before the increment of
the attempt counter (lines 101-103), and both increments occur before the
read-backs used for emission (lines 105-106); in a successful probe the
attempt increment likewise precedes the read-backs. -/
theorem error_before_attempt_before_read (host : String) (e : ℚ) :
    occursBefore (probeTrace host false e)
      (ProbeEvent.incError host) (ProbeEvent.incTotal host) ∧
    occursBefore (probeTrace host false e)
      (ProbeEvent.incError host) (ProbeEvent.readTotal host) ∧
    occursBefore (probeTrace host false e)
      (ProbeEvent.incError host) (ProbeEvent.readError host) ∧
    occursBefore (probeTrace host false e)
      (ProbeEvent.incTotal host) (ProbeEvent.readTotal host) ∧
    occursBefore (probeTrace host false e)
      (ProbeEvent.incTotal host) (ProbeEvent.readError host) ∧
    occursBefore (probeTrace host true e)
      (ProbeEvent.incTotal host) (ProbeEvent.readTotal host) ∧
    occursBefore (probeTrace host true e)
      (ProbeEvent.incTotal host) (ProbeEvent.readError host) := by
  have h6 : (probeTrace host false e).length = 6 := rfl
  have h4 : (probeTrace host true e).length = 4 := rfl
  refine ⟨⟨⟨0, by omega⟩, ⟨2, by omega⟩, Fin.mk_lt_mk.mpr (by norm_num), rfl, rfl⟩,
    ⟨⟨0, by omega⟩, ⟨3, by omega⟩, Fin.mk_lt_mk.mpr (by norm_num), rfl, rfl⟩,
    ⟨⟨0, by omega⟩, ⟨4, by omega⟩, Fin.mk_lt_mk.mpr (by norm_num), rfl, rfl⟩,
    ⟨⟨2, by omega⟩, ⟨3, by omega⟩, Fin.mk_lt_mk.mpr (by norm_num), rfl, rfl⟩,
    ⟨⟨2, by omega⟩, ⟨4, by omega⟩, Fin.mk_lt_mk.mpr (by norm_num), rfl, rfl⟩,
    ⟨⟨0, by omega⟩, ⟨1, by omega⟩, Fin.mk_lt_mk.mpr (by norm_num), rfl, rfl⟩,
    ⟨⟨0, by omega⟩, ⟨2, by omega⟩, Fin.mk_lt_mk.mpr (by norm_num), rfl, rfl⟩⟩

/-- C5, counterexample: the exported metric names are not exactly
resolution_total, resolution_error_total and resolution_seconds: NewDesc is
called with BuildFQName(Namespace, "", name), so every exported name carries
the dns_exporter namespace prefix. -/
theorem metric_names_carry_namespace_prefix :
    (dnsCollector cfgA).total.fqName = "dns_exporter_resolution_total" ∧
    (dnsCollector cfgA).total.fqName ≠ "resolution_total" ∧
    (dnsCollector cfgA).totalError.fqName ≠ "resolution_error_total" ∧
    (dnsCollector cfgA).latency.fqName ≠ "resolution_seconds" := by decide

/-- C5, amended: the three metrics exported per host are named exactly
dns_exporter_resolution_total, dns_exporter_resolution_error_total and
dns_exporter_resolution_seconds (the configured names prefixed by the
Namespace constant), each declared with the single variable label host, and
every sample emitted during a scrape bears one of these three names. -/
theorem metric_names_and_host_label (config : Config) (outcome : String → Bool × ℚ) :
    (dnsCollector config).total.fqName = "dns_exporter_resolution_total" ∧
    (dnsCollector config).total.variableLabels = ["host"] ∧
    (dnsCollector config).totalError.fqName = "dns_exporter_resolution_error_total" ∧
    (dnsCollector config).totalError.variableLabels = ["host"] ∧
    (dnsCollector config).latency.fqName = "dns_exporter_resolution_seconds" ∧
    (dnsCollector config).latency.variableLabels = ["host"] ∧
    ∀ smp ∈ (Collect (dnsCollector config) outcome).emitted,
      smp.name ∈ ["dns_exporter_resolution_total", "dns_exporter_resolution_error_total",
        "dns_exporter_resolution_seconds"] := by
  refine ⟨rfl, rfl, rfl, rfl, rfl, rfl, ?_⟩
  intro smp hmem
  simp only [Collect] at hmem
  have hspec := collectAux_emitted_mem outcome (dnsCollector config).hosts
    { collector := dnsCollector config, emitted := [], logs := [] } smp hmem
  rcases hspec with hemp | ⟨x, _, _, hd⟩
  · cases hemp
  · rcases hd with ⟨hn, _⟩ | ⟨hn, _⟩ | ⟨hn, _, _⟩
    · rw [hn]; exact List.mem_cons_self _ _
    · rw [hn]; exact List.mem_cons_of_mem _ (List.mem_cons_self _ _)
    · rw [hn]
      exact List.mem_cons_of_mem _ (List.mem_cons_of_mem _ (List.mem_cons_self _ _))

/-- Witness for C5: the attempt-total sample emitted for host "a" in a
concrete scrape bears one of the three exported names. -/
theorem metric_names_and_host_label_witness :
    ({ name := "dns_exporter_resolution_total", host := "a", value := 1,
       kind := MetricKind.counter } : Sample).name ∈
      ["dns_exporter_resolution_total", "dns_exporter_resolution_error_total",
       "dns_exporter_resolution_seconds"] :=
  (metric_names_and_host_label cfgA (fun _ => (true, 0))).2.2.2.2.2.2
    { name := "dns_exporter_resolution_total", host := "a", value := 1,
      kind := MetricKind.counter } (by decide)

/-- C6, confirmed: for every registry and every outcome assignment
(including one where every lookup fails), the Collection Cycle completes and
emits exactly three samples per registry entry, each host receiving three
samples per occurrence (so a failed host still gets its full set), and every
lookup failure is logged (one log entry per failed probe, none for
successes).  The probe never signals an error to its caller: resolveHost is
total and only updates counters, logs and the sample channel. -/
theorem cycle_completes_with_samples_and_logs (c : DNSCollector)
    (outcome : String → Bool × ℚ) :
    (Collect c outcome).emitted.length = 3 * c.hosts.length ∧
    (∀ h : String,
      ((Collect c outcome).emitted.filter (fun smp => smp.host == h)).length =
        3 * occCount h c.hosts) ∧
    (Collect c outcome).logs = c.hosts.filter (fun x => !(outcome x).1) := by
  refine ⟨?_, ?_, ?_⟩
  · have := collectAux_emitted_length outcome c.hosts
      { collector := c, emitted := [], logs := [] }
    simpa [Collect] using this
  · intro h
    have := collectAux_emitted_filter outcome c.hosts
      { collector := c, emitted := [], logs := [] } h
    simpa [Collect] using this
  · have := collectAux_logs outcome c.hosts
      { collector := c, emitted := [], logs := [] }
    simpa [Collect] using this

/-- C7, confirmed: every latency sample emitted during cycle n carries
exactly the elapsed duration measured by that same probe in that same cycle
(the oracle value for that host in cycle n), independent of the lookup
outcome and of all previous cycles, and it is emitted as a gauge — never a
cumulative sum or average over prior cycles. -/
theorem latency_sample_reflects_current_cycle (config : Config)
    (outcomes : Nat → String → Bool × ℚ) (n : Nat) :
    ∀ smp ∈ (Collect (runCycles outcomes (dnsCollector config) n) (outcomes n)).emitted,
      smp.name = "dns_exporter_resolution_seconds" →
        smp.value = (outcomes n smp.host).2 ∧ smp.kind = MetricKind.gauge := by
  intro smp hmem hname
  simp only [Collect] at hmem
  have hspec := collectAux_emitted_mem (outcomes n)
    (runCycles outcomes (dnsCollector config) n).hosts
    { collector := runCycles outcomes (dnsCollector config) n, emitted := [], logs := [] }
    smp hmem
  obtain ⟨d1, d2, d3, d4⟩ := runCycles_descs outcomes (dnsCollector config) n
  rcases hspec with hemp | ⟨x, _, hhost, hd⟩
  · cases hemp
  · rcases hd with ⟨hn, _⟩ | ⟨hn, _⟩ | ⟨hn, hk, hv⟩
    · rw [d1] at hn
      have hT : (dnsCollector config).total.fqName = "dns_exporter_resolution_total" := rfl
      rw [hT] at hn
      exact absurd (hname.symm.trans hn) (by decide)
    · rw [d2] at hn
      have hE : (dnsCollector config).totalError.fqName =
          "dns_exporter_resolution_error_total" := rfl
      rw [hE] at hn
      exact absurd (hname.symm.trans hn) (by decide)
    · rw [hhost]
      exact ⟨hv, hk⟩

/-- Witness for C7: after a first cycle with elapsed 3, the latency sample
of the second cycle carries the second cycle elapsed value 4. -/
theorem latency_sample_reflects_current_cycle_witness :
    ({ name := "dns_exporter_resolution_seconds", host := "a", value := 4,
       kind := MetricKind.gauge } : Sample).value = (wOutcomes 1 "a").2 ∧
    ({ name := "dns_exporter_resolution_seconds", host := "a", value := 4,
       kind := MetricKind.gauge } : Sample).kind = MetricKind.gauge :=
  latency_sample_reflects_current_cycle cfgA wOutcomes 1
    { name := "dns_exporter_resolution_seconds", host := "a", value := 4,
      kind := MetricKind.gauge } (by decide) rfl

/-- C8, counterexample: the read-back is not atomic with respect to
concurrent increments.  racyInterleaving is a legal interleaving of two
failing probes of the same host (each thread in program order, each
increment atomic under its mutex).  Right after thread A performs its own
attempt increment the count is 1, yet the first sample A emits — produced by
the unsynchronized map read of line 105 — carries the value 2, because
thread B incremented the counter between A its increment and A its read.
So the emitted attempt total differs from the attempt count right after
this probe own increment. -/
theorem read_back_not_atomic_under_interleaving :
    isInterleaving racyInterleaving (probeTrace "a" false 0) (probeTrace "a" false 0) ∧
    CounterMap.get (runTagged sA (racyInterleaving.take 3)).collector.totalCount "a" = 1 ∧
    (runTagged sA racyInterleaving).emitted.head? = some
      { name := "dns_exporter_resolution_total", host := "a", value := 2,
        kind := MetricKind.counter } ∧
    (2 : ℚ) ≠
      (CounterMap.get (runTagged sA (racyInterleaving.take 3)).collector.totalCount "a" : ℚ)
    := by decide

/-- C8, amended: in program order the read-back follows the increments of
the same probe, and in an execution without interference from concurrent
probes of the same host the emitted attempt and error totals equal the
counts right after this probe performed its increments.  The reads at lines
105-106 are plain map reads made without holding the mutexes, so they are
not atomic with respect to concurrent increments (see the counterexample
for an interleaving where the emitted value includes a concurrent
increment). -/
theorem read_back_reflects_own_increments_sequentially (s : RunState) (host : String)
    (ok : Bool) (e : ℚ) :
    (resolveHost s host ok e).emitted = s.emitted ++
      [ { name := s.collector.total.fqName
          host := host
          value := (CounterMap.get (resolveHost s host ok e).collector.totalCount host : ℚ)
          kind := MetricKind.counter },
        { name := s.collector.totalError.fqName
          host := host
          value := (CounterMap.get (resolveHost s host ok e).collector.totalErrorCount host : ℚ)
          kind := MetricKind.counter },
        { name := s.collector.latency.fqName
          host := host
          value := e
          kind := MetricKind.gauge } ] ∧
    CounterMap.get (resolveHost s host ok e).collector.totalCount host =
      CounterMap.get s.collector.totalCount host + 1 ∧
    CounterMap.get (resolveHost s host ok e).collector.totalErrorCount host =
      CounterMap.get s.collector.totalErrorCount host + (if ok then 0 else 1) := by
  refine ⟨resolveHost_emitted s host ok e, ?_, ?_⟩
  · rw [resolveHost_totalCount_get]; simp
  · rw [resolveHost_totalErrorCount_get]; simp

/-- C9, confirmed: when the host registry is the empty list, a Collection
Cycle completes and returns immediately: no lookup runs, the counter maps
are unchanged, no sample is emitted and nothing is logged. -/
theorem empty_registry_cycle_is_noop (c : DNSCollector) (outcome : String → Bool × ℚ)
    (hempty : c.hosts = []) :
    Collect c outcome = { collector := c, emitted := [], logs := [] } := by
  simp only [Collect, hempty, collectAux]

/-- Witness for C9: the empty-registry cycle on a concrete collector. -/
theorem empty_registry_cycle_is_noop_witness :
    Collect (dnsCollector { Hosts := [] }) (fun _ => (true, 0)) =
      { collector := dnsCollector { Hosts := [] }, emitted := [], logs := [] } :=
  empty_registry_cycle_is_noop (dnsCollector { Hosts := [] }) (fun _ => (true, 0)) rfl

/-- C10, confirmed: for every Config, including the empty host list,
NewDNSCollector returns the collector (never a nil pointer, modelled by the
ok constructor) with both counter maps empty and a nil error; construction
never fails at this interface. -/
theorem NewDNSCollector_always_ok_with_empty_maps (config : Config) :
    NewDNSCollector config = Except.ok (dnsCollector config) ∧
    (dnsCollector config).totalCount = [] ∧
    (dnsCollector config).totalErrorCount = [] ∧
    (dnsCollector config).hosts = config.Hosts :=
  ⟨rfl, rfl, rfl, rfl⟩
